import Mathlib

/-!
Verification of the audio-reactive blob visualization
(`src/unnamed/part_003` and `src/components/AudioReactiveBlob.jsx`).

JavaScript floating-point numbers are modelled as exact rationals (`ℚ`);
`p.noise`, `p.sin`, `p.cos`, `Math.sin` return values are treated as oracle
inputs (arbitrary rationals supplied per frame / per vertex), which makes the
proved clamp invariants hold for every possible noise implementation.
-/

/-- p5.js `lerp(start, stop, amt) = start + (stop - start) * amt`. -/
def plerp (a b amt : ℚ) : ℚ := a + (b - a) * amt

/-- p5.js `constrain(n, low, high) = max(min(n, high), low)`. -/
def pconstrain (n low high : ℚ) : ℚ := max (min n high) low

/-- p5.js `map(n, start1, stop1, start2, stop2)` without the bounds flag. -/
def pmap (n s1 e1 s2 e2 : ℚ) : ℚ := (n - s1) / (e1 - s1) * (e2 - s2) + s2

/-- p5.js `map(n, start1, stop1, start2, stop2, true)`: the linear map followed
by `constrain` into the output interval (taken in either order). -/
def pmapc (n s1 e1 s2 e2 : ℚ) : ℚ :=
  if s2 < e2 then pconstrain (pmap n s1 e1 s2 e2) s2 e2
  else pconstrain (pmap n s1 e1 s2 e2) e2 s2

lemma pconstrain_bounds (n low high : ℚ) (h : low ≤ high) :
    low ≤ pconstrain n low high ∧ pconstrain n low high ≤ high := by
  constructor
  · exact le_max_right _ _
  · exact max_le (le_trans (min_le_right _ _) le_rfl) h

/-! ## Tuning constants of the main sketch (`src/unnamed/part_003`) -/

def numVertices : ℕ := 140
def breathingAmount : ℚ := 0.025
def maxInhaleFactor : ℚ := 0.08
def basePassiveDeformationAmount : ℚ := 0.04
def maxPassiveDeformationBoost : ℚ := 0.02
def maxPeakExtensionFactor : ℚ := 1.1
def audioLerpFactor : ℚ := 0.1
def audioThreshold : ℚ := 0.09
def ahaThresholdMultiplier : ℚ := 1.4
def ahaMinimumLevel : ℚ := 0.30
def ahaDuration : ℕ := 15
def volumeHistoryLength : ℕ := 60
def baseHue : ℚ := 210
def hueShiftRange : ℚ := 15
def hueLerpFactor : ℚ := 0.01
def fftSize : ℕ := 512
def pitchMinFreq : ℚ := 80
def pitchMaxFreq : ℚ := 500

/-! ## C1: blob-shape radius clamp (`calculateBlobShape` in part_003) -/

/-- The fields of the sketch state read by `calculateBlobShape` when computing
a vertex radius (part_003, lines 363-513). -/
structure BlobState where
  baseRadius : ℚ
  smoothedOverallLevel : ℚ
  smoothedTrebleLevel : ℚ
  frequencySpread : ℚ
  isBreathing : Bool
  inhaleAmount : ℚ
  isP5StateActive : Bool
  activeStateIntensity : ℚ
  currentPassiveDeformationAmount : ℚ
  currentActiveTextureIntensity : ℚ
  currentWavinessInfluence : ℚ
  activePeakMultiplier : ℚ
  deriving DecidableEq

/-- Oracle values for one vertex: the outputs of `p.noise`, `p.sin` and
`Math.sin` that `calculateBlobShape` consumes.  `breathingSinVal` and
`inhaleSinVal` are the per-frame sine evaluations used for `coreMod`. -/
structure BlobNoise where
  breathingSinVal : ℚ
  inhaleSinVal : ℚ
  passiveNoiseVal : ℚ
  rippleSinVal : ℚ
  shapeNoiseVal : ℚ
  textureNoiseVal : ℚ
  wavinessNoiseVal : ℚ
  volumeWaveSinVal : ℚ
  deriving DecidableEq

/-- Lower clamp bound: `baseRadius * 0.2 * (1 - maxInhaleFactor)`. -/
def minRadiusClamp (st : BlobState) : ℚ :=
  st.baseRadius * 0.2 * (1 - maxInhaleFactor)

/-- Upper clamp bound:
`(maxCoreDeformation + maxPeak * 1.2) * (1 + smoothedOverallLevel * 0.3)`. -/
def maxRadiusClamp (st : BlobState) : ℚ :=
  let maxCoreDeformation := st.baseRadius *
    (1 + basePassiveDeformationAmount + maxPassiveDeformationBoost +
      breathingAmount + maxInhaleFactor)
  let maxPeak := st.baseRadius * maxPeakExtensionFactor
  (maxCoreDeformation + maxPeak * 1.2) * (1 + st.smoothedOverallLevel * 0.3)

/-- One vertex radius as computed by `calculateBlobShape` (part_003,
lines 363-513), with the noise / sine samples supplied by `nz`. -/
def calculateBlobShapeRadius (st : BlobState) (nz : BlobNoise) : ℚ :=
  let coreMod : ℚ :=
    (if st.isBreathing then nz.breathingSinVal * breathingAmount else 0) +
    (if st.inhaleAmount ≠ 0 then nz.inhaleSinVal * maxInhaleFactor * (-1) else 0)
  let currentBaseRadius := st.baseRadius * (1 + coreMod)
  let volumeWavinessBoost := pmapc st.smoothedOverallLevel 0.2 0.8 1 2.2
  let highFreqWavinessBoost := pmapc st.smoothedTrebleLevel 0.1 0.7 1 1.6
  -- `freqSpreadWaviness` only rescales the waviness-noise input coordinates,
  -- which are absorbed into the oracle value `nz.wavinessNoiseVal` here.
  let waveAmplitude := 0.005 + st.smoothedOverallLevel * 0.04
  let volumeModulatedAmount :=
    if st.smoothedOverallLevel > 0.3 then
      plerp st.currentPassiveDeformationAmount
        (st.currentPassiveDeformationAmount * volumeWavinessBoost)
        (pmapc st.smoothedOverallLevel 0.3 0.9 0 1)
    else st.currentPassiveDeformationAmount
  let passiveOffset :=
    pmap nz.passiveNoiseVal 0 1 (-volumeModulatedAmount) volumeModulatedAmount *
      currentBaseRadius
  let coreRadius0 := currentBaseRadius + passiveOffset
  let coreRadius :=
    if st.smoothedTrebleLevel > 0.25 then
      let rippleAmplitude :=
        currentBaseRadius * 0.004 * st.smoothedTrebleLevel * highFreqWavinessBoost
      coreRadius0 + nz.rippleSinVal * rippleAmplitude
    else coreRadius0
  let peakExtensionOffset :=
    if st.activeStateIntensity > 0.01 ∧ st.isP5StateActive then
      let textureOffset :=
        pmap nz.textureNoiseVal 0 1 (-st.currentActiveTextureIntensity)
          st.currentActiveTextureIntensity
      let amplifiedWavinessInfluence :=
        if st.smoothedOverallLevel > 0.2 then
          plerp st.currentWavinessInfluence
            (st.currentWavinessInfluence * volumeWavinessBoost * 1.5)
            (pmapc st.smoothedOverallLevel 0.2 0.8 0 1)
        else st.currentWavinessInfluence
      let wavinessOffset0 :=
        pmap nz.wavinessNoiseVal 0 1 (-1) 1 * amplifiedWavinessInfluence
      let wavinessOffset :=
        if st.smoothedOverallLevel > 0.3 then
          wavinessOffset0 +
            nz.volumeWaveSinVal * waveAmplitude * 0.6 * currentBaseRadius *
              pmapc st.smoothedOverallLevel 0.3 0.8 0 1
        else wavinessOffset0
      let combinedActiveNoiseShape :=
        pmap nz.shapeNoiseVal 0 1 0 1 + textureOffset + wavinessOffset
      let peakMagnitude :=
        st.baseRadius * max 0 combinedActiveNoiseShape *
          max 0 (st.activePeakMultiplier - 1.0)
      peakMagnitude * st.activeStateIntensity
    else 0
  let totalRadius := coreRadius + peakExtensionOffset
  pconstrain totalRadius (minRadiusClamp st) (maxRadiusClamp st)

/-! Host-driven variant (`src/components/AudioReactiveBlob.jsx`,
`calculateBlobShape`, lines 154-200). -/

/-- Sketch state read by the host-driven `calculateBlobShape`. -/
structure HostBlobState where
  baseRadius : ℚ
  currentVisualActivity : ℚ
  smoothedVolumeLevel : ℚ
  isConnectingVisually : Bool
  deriving DecidableEq

/-- Noise / sine samples consumed for one vertex of the host-driven blob. -/
structure HostBlobNoise where
  idleNoiseVal : ℚ
  activeNoiseVal : ℚ
  wavinessNoiseVal : ℚ
  pulseSinVal : ℚ
  deriving DecidableEq

/-- One vertex radius as computed by the host-driven `calculateBlobShape`
(AudioReactiveBlob.jsx, lines 161-199): idle noise offset, optional active and
waviness offsets, optional connecting pulse, then
`constrain(radius, baseRadius * 0.6, baseRadius * 1.4)`. -/
def hostCalculateBlobShapeRadius (st : HostBlobState) (nz : HostBlobNoise) : ℚ :=
  let idleOffset := pmap nz.idleNoiseVal 0 1 (-0.03) 0.03 * st.baseRadius
  let radius0 := st.baseRadius + idleOffset
  let radius1 :=
    if st.currentVisualActivity > 0.01 then
      let activeDeformationAmount := 0.05 + st.smoothedVolumeLevel * 0.15
      let activeOffset :=
        pmap nz.activeNoiseVal 0 1 (-activeDeformationAmount)
          activeDeformationAmount * st.baseRadius
      let wavinessAmount := 0.02 + st.smoothedVolumeLevel * 0.08
      let wavinessOffset :=
        pmap nz.wavinessNoiseVal 0 1 (-wavinessAmount) wavinessAmount *
          st.baseRadius
      radius0 + (activeOffset + wavinessOffset) * st.currentVisualActivity
    else radius0
  let radius2 :=
    if st.isConnectingVisually then
      radius1 + (nz.pulseSinVal + 1) / 2 * st.baseRadius * 0.05 *
        (1 - st.currentVisualActivity)
    else radius1
  pconstrain radius2 (st.baseRadius * 0.6) (st.baseRadius * 1.4)

/-- C1: for every state with a non-negative base radius and non-negative
smoothed overall level (which includes the `overallLevel = 0` and `= 1` edge
cases) and every noise-oracle assignment — hence for all 140 vertices of every
frame — the radius produced by `calculateBlobShape` lies within
`[minRadiusClamp, maxRadiusClamp]`; likewise the host-driven variant stays in
`[0.6 * baseRadius, 1.4 * baseRadius]`. -/
theorem blob_vertex_radius_within_clamp_bounds
    (st : BlobState) (hR : 0 ≤ st.baseRadius) (hL : 0 ≤ st.smoothedOverallLevel)
    (hst : HostBlobState) (hhR : 0 ≤ hst.baseRadius) :
    (∀ noiz : Fin numVertices → BlobNoise, ∀ i : Fin numVertices,
       minRadiusClamp st ≤ calculateBlobShapeRadius st (noiz i) ∧
       calculateBlobShapeRadius st (noiz i) ≤ maxRadiusClamp st) ∧
    (∀ hnoiz : Fin numVertices → HostBlobNoise, ∀ i : Fin numVertices,
       hst.baseRadius * 0.6 ≤ hostCalculateBlobShapeRadius hst (hnoiz i) ∧
       hostCalculateBlobShapeRadius hst (hnoiz i) ≤ hst.baseRadius * 1.4) := by
  constructor
  · intro noiz i
    have hclamp : minRadiusClamp st ≤ maxRadiusClamp st := by
      unfold minRadiusClamp maxRadiusClamp
      unfold breathingAmount maxInhaleFactor basePassiveDeformationAmount
        maxPassiveDeformationBoost maxPeakExtensionFactor
      nlinarith [mul_nonneg hR hL]
    exact pconstrain_bounds _ _ _ hclamp
  · intro hnoiz i
    have hclamp : hst.baseRadius * 0.6 ≤ hst.baseRadius * 1.4 := by nlinarith
    exact pconstrain_bounds _ _ _ hclamp

/-- Witness for C1 at a concrete state (baseRadius 100, overall level 1/2)
and a concrete noise assignment. -/
theorem blob_vertex_radius_within_clamp_bounds_witness :
    (0:ℚ) ≤ (100:ℚ) ∧ (0:ℚ) ≤ (1/2:ℚ) ∧
    (minRadiusClamp ⟨100, 1/2, 1/2, 1/2, true, 1/2, true, 1, 0.04, 0.04, 0.1, 1.1⟩ ≤
      calculateBlobShapeRadius ⟨100, 1/2, 1/2, 1/2, true, 1/2, true, 1, 0.04, 0.04, 0.1, 1.1⟩
        ⟨1, 1, 1, 1, 1, 1, 1, 1⟩) := by
  refine ⟨by norm_num, by norm_num, ?_⟩
  exact ((blob_vertex_radius_within_clamp_bounds
      ⟨100, 1/2, 1/2, 1/2, true, 1/2, true, 1, 0.04, 0.04, 0.1, 1.1⟩
      (by norm_num) (by norm_num) ⟨1, 0, 0, false⟩ (by norm_num)).1
      (fun _ => ⟨1, 1, 1, 1, 1, 1, 1, 1⟩) ⟨0, by norm_num [numVertices]⟩).1

/-! ## C5: idle decay of the smoothed overall level (`updateAudio`, idle branch) -/

/-- The idle branch of `updateAudio` (part_003, line 319): when capture is
inactive, `smoothedOverallLevel = lerp(smoothedOverallLevel, 0, audioLerpFactor * 0.3)`. -/
def idleOverallLevelStep (s : ℚ) : ℚ := plerp s 0 (audioLerpFactor * 0.3)

/-- `n` idle frames applied to a starting smoothed overall level. -/
def idleOverallLevelIter (n : ℕ) (s : ℚ) : ℚ := idleOverallLevelStep^[n] s

lemma idleOverallLevelStep_eq (s : ℚ) : idleOverallLevelStep s = s * (97 / 100) := by
  unfold idleOverallLevelStep plerp audioLerpFactor
  ring

lemma idleOverallLevelIter_eq (s : ℚ) :
    ∀ n : ℕ, idleOverallLevelIter n s = s * (97 / 100) ^ n := by
  intro n
  induction n with
  | zero => simp [idleOverallLevelIter]
  | succ m ih =>
      unfold idleOverallLevelIter at ih ⊢
      rw [Function.iterate_succ_apply', ih, idleOverallLevelStep_eq]
      ring

/-- C5: with capture inactive, the per-frame update of `smoothedOverallLevel`
is monotonically non-increasing, never negative, and decays geometrically
toward 0 (below any positive epsilon after enough frames), for every
non-negative starting value and every number of frames. -/
theorem idle_overall_level_monotone_to_zero (s : ℚ) (hs : 0 ≤ s) :
    (∀ n : ℕ, 0 ≤ idleOverallLevelIter n s) ∧
    (∀ n : ℕ, idleOverallLevelIter (n + 1) s ≤ idleOverallLevelIter n s) ∧
    (∀ n : ℕ, idleOverallLevelIter n s = s * (97 / 100) ^ n) ∧
    (∀ ε : ℚ, 0 < ε → ∃ N : ℕ, ∀ n : ℕ, N ≤ n → idleOverallLevelIter n s ≤ ε) := by
  refine ⟨fun n => ?_, fun n => ?_, idleOverallLevelIter_eq s, fun ε hε => ?_⟩
  · rw [idleOverallLevelIter_eq]
    positivity
  · rw [idleOverallLevelIter_eq, idleOverallLevelIter_eq, pow_succ]
    have hp : (0:ℚ) ≤ (97 / 100) ^ n := by positivity
    nlinarith
  · have hs1 : (0:ℚ) < s + 1 := by linarith
    obtain ⟨N, hN⟩ := exists_pow_lt_of_lt_one (div_pos hε hs1)
      (by norm_num : (97:ℚ)/100 < 1)
    refine ⟨N, fun n hn => ?_⟩
    rw [idleOverallLevelIter_eq]
    have hpow : ((97:ℚ)/100) ^ n ≤ ((97:ℚ)/100) ^ N :=
      pow_le_pow_of_le_one (by norm_num) (by norm_num) hn
    have h1 : s * ((97:ℚ)/100) ^ n ≤ s * (ε / (s + 1)) :=
      mul_le_mul_of_nonneg_left (le_trans hpow (le_of_lt hN)) hs
    have h2 : s * (ε / (s + 1)) ≤ ε := by
      rw [← mul_div_assoc, div_le_iff₀ hs1]
      nlinarith
    linarith

/-- Witness for C5 at starting level 1/2. -/
theorem idle_overall_level_monotone_to_zero_witness :
    (0:ℚ) ≤ 1/2 ∧ (∀ n : ℕ, 0 ≤ idleOverallLevelIter n (1/2)) :=
  ⟨by norm_num, (idle_overall_level_monotone_to_zero (1/2) (by norm_num)).1⟩

/-! ## C3: transient ("Aha!") detection -/

/-- State of the transient detector: the trailing volume history (fixed-length
ring buffer), the `isAhaMoment` flag and its frame timer. -/
structure AhaState where
  volumeHistory : List ℚ
  isAhaMoment : Bool
  ahaTimer : ℕ
  deriving DecidableEq

/-- `volumeHistory.push(level)` followed by the conditional
`volumeHistory.shift()` eviction of the oldest sample (part_003, line 319). -/
def pushTrim (level : ℚ) (hist : List ℚ) : List ℚ :=
  let hist0 := hist ++ [level]
  if volumeHistoryLength < hist0.length then hist0.tail else hist0

/-- The volume-history and Aha-detection part of `updateAudio` (part_003,
line 319), driven by the frame's smoothed overall `level`: push the level,
evict the oldest sample when the buffer overflows, recompute `averageVolume`,
then raise the flag when `level > ahaMinimumLevel`, `averageVolume > 0.01` and
`level > averageVolume * ahaThresholdMultiplier` (and it is not already up). -/
def ahaAudioStep (level : ℚ) (s : AhaState) : AhaState :=
  let hist := pushTrim level s.volumeHistory
  let averageVolume := hist.sum / (hist.length : ℚ)
  if s.isAhaMoment = false ∧ level > ahaMinimumLevel ∧ averageVolume > 0.01 ∧
      level > averageVolume * ahaThresholdMultiplier then
    { volumeHistory := hist, isAhaMoment := true, ahaTimer := ahaDuration }
  else
    { s with volumeHistory := hist }

/-- The Aha-timer decay in `updateStateAndMotion` (part_003, line 344):
`if (ahaTimer > 0) { ahaTimer--; if (ahaTimer <= 0) isAhaMoment = false; }`. -/
def ahaMotionStep (s : AhaState) : AhaState :=
  if 0 < s.ahaTimer then
    let t := s.ahaTimer - 1
    { s with ahaTimer := t, isAhaMoment := if t = 0 then false else s.isAhaMoment }
  else s

/-- One animation frame of the transient subsystem, in the order `p.draw`
calls it: `updateAudio` then `updateStateAndMotion`. -/
def ahaFrame (level : ℚ) (s : AhaState) : AhaState :=
  ahaMotionStep (ahaAudioStep level s)

/-- A steady trailing history at volume 0.1, flag down. -/
def ahaBaseline : AhaState :=
  { volumeHistory := List.replicate volumeHistoryLength 0.1
    isAhaMoment := false
    ahaTimer := 0 }

/-- The state right after the single spiking frame (`overallLevel = 0.5`). -/
def ahaAfterSpike : AhaState := ahaFrame 0.5 ahaBaseline

lemma ahaAudioStep_notrigger (level : ℚ) (s : AhaState)
    (h : ¬(level > ahaMinimumLevel)) :
    (ahaAudioStep level s).isAhaMoment = s.isAhaMoment ∧
    (ahaAudioStep level s).ahaTimer = s.ahaTimer := by
  unfold ahaAudioStep
  dsimp only
  split
  · next hc => exact absurd hc.2.1 h
  · exact ⟨rfl, rfl⟩

lemma ahaAudioStep_flagged (level : ℚ) (s : AhaState) (h : s.isAhaMoment = true) :
    (ahaAudioStep level s).isAhaMoment = true ∧
    (ahaAudioStep level s).ahaTimer = s.ahaTimer := by
  unfold ahaAudioStep
  dsimp only
  split
  · next hc => rw [h] at hc; exact absurd hc.1 (by simp)
  · exact ⟨h, rfl⟩

lemma ahaMotionStep_pos (s : AhaState) (h : 0 < s.ahaTimer) :
    (ahaMotionStep s).ahaTimer = s.ahaTimer - 1 ∧
    (ahaMotionStep s).isAhaMoment =
      (if s.ahaTimer - 1 = 0 then false else s.isAhaMoment) := by
  unfold ahaMotionStep
  rw [if_pos h]
  exact ⟨rfl, rfl⟩

lemma ahaMotionStep_zero (s : AhaState) (h : s.ahaTimer = 0) :
    ahaMotionStep s = s := by
  unfold ahaMotionStep
  rw [if_neg (by omega)]

lemma ahaFrame_quiet_keeps_down (s : AhaState)
    (h1 : s.isAhaMoment = false) (h2 : s.ahaTimer = 0) :
    (ahaFrame 0.1 s).isAhaMoment = false ∧ (ahaFrame 0.1 s).ahaTimer = 0 := by
  have ha := ahaAudioStep_notrigger 0.1 s (by norm_num [ahaMinimumLevel])
  unfold ahaFrame
  rw [ahaMotionStep_zero _ (ha.2.trans h2)]
  exact ⟨ha.1.trans h1, ha.2.trans h2⟩

lemma ahaFrame_quiet_true_step (s : AhaState) (h1 : s.isAhaMoment = true)
    (h2 : 2 ≤ s.ahaTimer) :
    (ahaFrame 0.1 s).isAhaMoment = true ∧
    (ahaFrame 0.1 s).ahaTimer = s.ahaTimer - 1 := by
  have ha := ahaAudioStep_flagged 0.1 s h1
  have hm := ahaMotionStep_pos (ahaAudioStep 0.1 s) (by omega)
  unfold ahaFrame
  refine ⟨?_, by rw [hm.1, ha.2]⟩
  rw [hm.2, ha.2, if_neg (by omega), ha.1]

lemma ahaFrame_last_step (s : AhaState) (h1 : s.isAhaMoment = true)
    (h2 : s.ahaTimer = 1) :
    (ahaFrame 0.1 s).isAhaMoment = false ∧ (ahaFrame 0.1 s).ahaTimer = 0 := by
  have ha := ahaAudioStep_flagged 0.1 s h1
  have hm := ahaMotionStep_pos (ahaAudioStep 0.1 s) (by omega)
  unfold ahaFrame
  refine ⟨?_, by rw [hm.1, ha.2, h2]⟩
  rw [hm.2, ha.2, h2, if_pos rfl]

lemma pushTrim_spike :
    pushTrim 0.5 ahaBaseline.volumeHistory =
      List.replicate 59 (0.1:ℚ) ++ [0.5] := by
  unfold pushTrim ahaBaseline
  dsimp only
  rw [if_pos (by simp [volumeHistoryLength])]
  rw [show volumeHistoryLength = 59 + 1 from rfl, List.replicate_succ]
  rfl

lemma ahaAfterSpike_flag_timer :
    ahaAfterSpike.isAhaMoment = true ∧ ahaAfterSpike.ahaTimer = 14 := by
  have hsum : (List.replicate 59 (0.1:ℚ) ++ [(0.5:ℚ)]).sum = 32/5 := by
    rw [List.sum_append, List.sum_replicate]
    norm_num
  have hlen : ((List.replicate 59 (0.1:ℚ) ++ [(0.5:ℚ)]).length : ℚ) = 60 := by
    simp
  have haudio : (ahaAudioStep 0.5 ahaBaseline).isAhaMoment = true ∧
      (ahaAudioStep 0.5 ahaBaseline).ahaTimer = ahaDuration := by
    unfold ahaAudioStep
    dsimp only
    rw [pushTrim_spike, hsum, hlen]
    rw [if_pos ?_]
    · exact ⟨rfl, rfl⟩
    · refine ⟨rfl, by norm_num [ahaMinimumLevel], by norm_num, ?_⟩
      norm_num [ahaThresholdMultiplier]
  have hm := ahaMotionStep_pos (ahaAudioStep 0.5 ahaBaseline)
    (by rw [haudio.2]; norm_num [ahaDuration])
  unfold ahaAfterSpike ahaFrame
  constructor
  · rw [hm.2, haudio.2, haudio.1, if_neg (by norm_num [ahaDuration])]
  · rw [hm.1, haudio.2]
    norm_num [ahaDuration]

/-- C3: from a trailing average of 0.1, a single frame whose smoothed overall
level reaches 0.5 (exceeding both the 1.4x-average threshold and the 0.30
absolute floor) raises `isAhaMoment`; the flag stays raised for the following
13 quiet frames while the `ahaDuration = 15` timer (decremented once already
in the spike frame itself) runs down, and from the 14th quiet frame on it has
automatically returned to false and stays false forever. -/
theorem aha_transient_sets_then_autoclears :
    ahaAfterSpike.isAhaMoment = true ∧
    (∀ j : Fin 14, ((ahaFrame 0.1)^[(j : ℕ)] ahaAfterSpike).isAhaMoment = true) ∧
    (∀ j : ℕ, ((ahaFrame 0.1)^[j + 14] ahaAfterSpike).isAhaMoment = false) := by
  have hspike := ahaAfterSpike_flag_timer
  have hrun : ∀ j : ℕ, j ≤ 13 →
      ((ahaFrame 0.1)^[j] ahaAfterSpike).isAhaMoment = true ∧
      ((ahaFrame 0.1)^[j] ahaAfterSpike).ahaTimer = 14 - j := by
    intro j
    induction j with
    | zero => intro _; simpa using hspike
    | succ n ih =>
        intro hn
        have prev := ih (by omega)
        rw [Function.iterate_succ_apply']
        have hstep := ahaFrame_quiet_true_step _ prev.1 (by omega)
        exact ⟨hstep.1, by rw [hstep.2, prev.2]; omega⟩
  have h13 := hrun 13 (le_refl 13)
  have h14 : ((ahaFrame 0.1)^[14] ahaAfterSpike).isAhaMoment = false ∧
      ((ahaFrame 0.1)^[14] ahaAfterSpike).ahaTimer = 0 := by
    rw [show (14:ℕ) = 13 + 1 from rfl, Function.iterate_succ_apply']
    exact ahaFrame_last_step _ h13.1 (by rw [h13.2])
  have hq : ∀ j : ℕ, ((ahaFrame 0.1)^[j + 14] ahaAfterSpike).isAhaMoment = false ∧
      ((ahaFrame 0.1)^[j + 14] ahaAfterSpike).ahaTimer = 0 := by
    intro j
    induction j with
    | zero => simpa using h14
    | succ n ih =>
        have hrw : n + 1 + 14 = (n + 14) + 1 := by omega
        rw [hrw, Function.iterate_succ_apply']
        exact ahaFrame_quiet_keeps_down _ ih.1 ih.2
  refine ⟨hspike.1, fun j => ?_, fun j => (hq j).1⟩
  have hj := j.isLt
  exact (hrun j (by omega)).1

/-! ## C8: resize safety (`p.windowResized`) -/

/-- `p.windowResized` (part_003, lines 663-678, and AudioReactiveBlob.jsx,
lines 298-306): the recomputed base radius is `min(width, height) / 5.0`,
with the container dimensions already floored to naturals. -/
def windowResizedBaseRadius (w h : ℕ) : ℚ := ((min w h : ℕ) : ℚ) / 5

/-- C8: the resize computation is total (no exception in the model) and for
every pair of container dimensions — in particular the degenerate 0x0 and 1x1
cases — the recomputed `baseRadius` is a well-defined non-negative rational
(in particular never NaN or negative). -/
theorem windowResized_baseRadius_safe :
    (∀ w h : ℕ, 0 ≤ windowResizedBaseRadius w h) ∧
    windowResizedBaseRadius 0 0 = 0 ∧
    windowResizedBaseRadius 1 1 = 1/5 := by
  refine ⟨fun w h => ?_, by norm_num [windowResizedBaseRadius],
    by norm_num [windowResizedBaseRadius]⟩
  unfold windowResizedBaseRadius
  positivity

/-! ## C9: `p.updateVolume` input guard (AudioReactiveBlob.jsx, lines 275-280) -/

/-- A JavaScript value as seen by `p.updateVolume`: a finite number, the
number `NaN` (for which both `NaN >= 0` and `NaN <= 1` are false), or a
non-number value (failing the `typeof volume === 'number'` test). -/
inductive JSValue where
  | num (q : ℚ)
  | nanNum
  | nonNumber
  deriving DecidableEq

/-- `p.updateVolume`: only when the argument passes
`typeof volume === 'number' && volume >= 0 && volume <= 1` is the smoothed
level moved one lerp step of factor 0.15 toward it. -/
def updateVolume (volume : JSValue) (smoothedVolumeLevel : ℚ) : ℚ :=
  match volume with
  | .num q =>
      if 0 ≤ q ∧ q ≤ 1 then plerp smoothedVolumeLevel q 0.15
      else smoothedVolumeLevel
  | .nanNum => smoothedVolumeLevel
  | .nonNumber => smoothedVolumeLevel

/-- C9: every argument that is not a number in [0,1] (non-number, NaN,
negative, or greater than 1) leaves `smoothedVolumeLevel` exactly unchanged;
a number in [0,1] moves it by exactly one lerp step of factor 0.15. -/
theorem updateVolume_guard :
    (∀ s q : ℚ, q < 0 → updateVolume (.num q) s = s) ∧
    (∀ s q : ℚ, 1 < q → updateVolume (.num q) s = s) ∧
    (∀ s : ℚ, updateVolume .nanNum s = s) ∧
    (∀ s : ℚ, updateVolume .nonNumber s = s) ∧
    (∀ s q : ℚ, 0 ≤ q → q ≤ 1 → updateVolume (.num q) s = plerp s q 0.15) := by
  refine ⟨fun s q hq => ?_, fun s q hq => ?_, fun s => rfl, fun s => rfl,
    fun s q h0 h1 => ?_⟩
  · have hc : ¬(0 ≤ q ∧ q ≤ 1) := fun h => (not_le.mpr hq) h.1
    simp [updateVolume, hc]
  · have hc : ¬(0 ≤ q ∧ q ≤ 1) := fun h => (not_le.mpr hq) h.2
    simp [updateVolume, hc]
  · simp [updateVolume, h0, h1]

/-- Witness for C9 at concrete arguments. -/
theorem updateVolume_guard_witness :
    ((-1:ℚ) < 0 ∧ updateVolume (.num (-1)) (1/3) = 1/3) ∧
    ((1:ℚ) < 2 ∧ updateVolume (.num 2) (1/3) = 1/3) ∧
    ((0:ℚ) ≤ 1/2 ∧ (1/2:ℚ) ≤ 1 ∧
      updateVolume (.num (1/2)) (1/3) = plerp (1/3) (1/2) 0.15) :=
  ⟨⟨by norm_num, updateVolume_guard.1 (1/3) (-1) (by norm_num)⟩,
   ⟨by norm_num, updateVolume_guard.2.1 (1/3) 2 (by norm_num)⟩,
   ⟨by norm_num, by norm_num,
     updateVolume_guard.2.2.2.2 (1/3) (1/2) (by norm_num) (by norm_num)⟩⟩

/-! ## C10: pitch-search index bounds (`p.setup` / `setupAudio`) -/

/-- `analyser.frequencyBinCount = fftSize / 2`: the length of the
frequency-data buffer. -/
def frequencyBinCount : ℕ := fftSize / 2

/-- `pitchMinIndex = Math.max(1, Math.floor(pitchMinFreq / binWidth))` with
`binWidth = (sampleRate / 2) / (fftSize / 2)` (part_003, lines 190-194 and the
identical recomputation inside `setupAudio`, line 313). -/
def pitchMinIndex (sampleRate : ℚ) : ℤ :=
  let nyquist := sampleRate / 2
  let binWidth := nyquist / ((fftSize : ℚ) / 2)
  max 1 ⌊pitchMinFreq / binWidth⌋

/-- `pitchMaxIndex = Math.min(fftSize / 2 - 1, Math.ceil(pitchMaxFreq / binWidth))`. -/
def pitchMaxIndex (sampleRate : ℚ) : ℤ :=
  let nyquist := sampleRate / 2
  let binWidth := nyquist / ((fftSize : ℚ) / 2)
  min ((fftSize : ℤ) / 2 - 1) ⌈pitchMaxFreq / binWidth⌉

/-- C10: for every positive reported sample rate the recomputed pitch-search
indices satisfy `1 ≤ pitchMinIndex` and `pitchMaxIndex ≤ fftSize / 2 - 1`, so
every index visited by `updateAudio`'s peak search (those `i` with
`pitchMinIndex ≤ i ≤ pitchMaxIndex`) is a valid index into the frequency-data
buffer of length `fftSize / 2 = frequencyBinCount`. -/
theorem pitch_search_indices_in_bounds (sampleRate : ℚ) (_hsr : 0 < sampleRate) :
    1 ≤ pitchMinIndex sampleRate ∧
    pitchMaxIndex sampleRate ≤ (fftSize : ℤ) / 2 - 1 ∧
    (∀ i : ℤ, pitchMinIndex sampleRate ≤ i → i ≤ pitchMaxIndex sampleRate →
      0 ≤ i ∧ i < (frequencyBinCount : ℤ)) := by
  have hmin : 1 ≤ pitchMinIndex sampleRate := le_max_left _ _
  have hmax : pitchMaxIndex sampleRate ≤ (fftSize : ℤ) / 2 - 1 := min_le_left _ _
  refine ⟨hmin, hmax, fun i h1 h2 => ⟨by linarith, ?_⟩⟩
  have : ((fftSize : ℤ) / 2 - 1) < (frequencyBinCount : ℤ) := by
    norm_num [fftSize, frequencyBinCount]
  linarith

/-- Witness for C10 at the default sample rate 44100. -/
theorem pitch_search_indices_in_bounds_witness :
    (0:ℚ) < 44100 ∧ 1 ≤ pitchMinIndex 44100 ∧
    pitchMaxIndex 44100 ≤ (fftSize : ℤ) / 2 - 1 :=
  ⟨by norm_num, (pitch_search_indices_in_bounds 44100 (by norm_num)).1,
   (pitch_search_indices_in_bounds 44100 (by norm_num)).2.1⟩

/-! ## C6: smoothing convergence of the lerped AnimationState fields -/

/-- JavaScript `a % b`, written for the non-negative dividends `updateColor`
produces (`a % b = a - b * trunc(a / b)`, and `trunc = floor` for `a, b > 0`). -/
def jsMod (a b : ℚ) : ℚ := a - b * ⌊a / b⌋

lemma jsMod_sub_of_lt (a b : ℚ) (hb : 0 < b) (h1 : b ≤ a) (h2 : a < 2 * b) :
    jsMod a b = a - b := by
  have hfl : ⌊a / b⌋ = 1 := by
    rw [Int.floor_eq_iff]
    constructor
    · rw [show ((1:ℤ) : ℚ) = 1 by norm_num, le_div_iff₀ hb]
      linarith
    · rw [div_lt_iff₀ hb]
      push_cast
      linarith
  unfold jsMod
  rw [hfl]
  push_cast
  ring

/-- The target hue computed by `updateColor` (part_003, line 348):
`(baseHue + spreadShift + pitchShift + 360) % 360` when the sketch is active
and above the audio threshold, `baseHue` otherwise. -/
def targetHueOf (active : Bool) (level frequencySpread pitchProxy : ℚ) : ℚ :=
  if active = true ∧ level > audioThreshold then
    jsMod (baseHue +
      pmapc frequencySpread 0.1 0.6 (-(hueShiftRange / 3)) (hueShiftRange / 3) +
      pmapc pitchProxy 0 1 (-(hueShiftRange / 2)) (hueShiftRange / 2) + 360) 360
  else baseHue

/-- One frame of hue smoothing in `updateColor` (part_003, line 348): the
180-degree wrap adjustment, the lerp of factor `hueLerpFactor` toward the
target, then the `(hue + 360) % 360` normalization. -/
def hueStep (targetHue currentHue : ℚ) : ℚ :=
  let hueDiff := targetHue - currentHue
  let adjusted :=
    if |hueDiff| > 180 then
      (if hueDiff > 0 then currentHue + 360 else currentHue - 360)
    else currentHue
  jsMod (plerp adjusted targetHue hueLerpFactor + 360) 360

/-- The constant target hue produced by holding the inputs
`active, level = 0.5, frequencySpread = 0.6, pitchProxy = 1` fixed. -/
def hueTargetHeld : ℚ := targetHueOf true 0.5 0.6 1

lemma hueTargetHeld_eq : hueTargetHeld = 445 / 2 := by
  unfold hueTargetHeld targetHueOf
  rw [if_pos ⟨rfl, by norm_num [audioThreshold]⟩]
  have hsum : baseHue +
      pmapc 0.6 0.1 0.6 (-(hueShiftRange / 3)) (hueShiftRange / 3) +
      pmapc 1 0 1 (-(hueShiftRange / 2)) (hueShiftRange / 2) + 360 = 1165 / 2 := by
    norm_num [pmapc, pmap, pconstrain, hueShiftRange, baseHue]
  rw [hsum, jsMod_sub_of_lt _ _ (by norm_num) (by norm_num) (by norm_num)]
  norm_num

lemma hueStep_no_wrap (c : ℚ) (h1 : 210 ≤ c) (h2 : c < 445 / 2) :
    hueStep hueTargetHeld c = plerp c (445 / 2) hueLerpFactor := by
  unfold hueStep
  dsimp only
  rw [hueTargetHeld_eq]
  have habs : ¬(|(445:ℚ) / 2 - c| > 180) := by
    rw [abs_of_nonneg (by linarith : (0:ℚ) ≤ 445 / 2 - c)]
    push_neg
    linarith
  rw [if_neg habs]
  have hv1 : 210 ≤ plerp c (445 / 2) hueLerpFactor := by
    unfold plerp hueLerpFactor
    nlinarith
  have hv2 : plerp c (445 / 2) hueLerpFactor < 445 / 2 := by
    unfold plerp hueLerpFactor
    nlinarith
  rw [jsMod_sub_of_lt _ _ (by norm_num) (by linarith) (by linarith)]
  ring

/-- The hue after `n` frames with the target inputs held fixed, starting from
the initial `currentHue = baseHue`. -/
def hueHeldIter (n : ℕ) : ℚ := (hueStep hueTargetHeld)^[n] baseHue

lemma hueHeldIter_eq : ∀ n : ℕ, hueHeldIter n = 445 / 2 - (25 / 2) * (99 / 100) ^ n := by
  intro n
  induction n with
  | zero =>
      unfold hueHeldIter baseHue
      norm_num
  | succ m ih =>
      unfold hueHeldIter at ih ⊢
      rw [Function.iterate_succ_apply']
      have hpow_pos : (0:ℚ) < (99 / 100) ^ m := by positivity
      have hpow_le : ((99:ℚ) / 100) ^ m ≤ 1 := pow_le_one₀ (by norm_num) (by norm_num)
      have h1 : (210:ℚ) ≤ (hueStep hueTargetHeld)^[m] baseHue := by
        rw [ih]; nlinarith
      have h2 : (hueStep hueTargetHeld)^[m] baseHue < 445 / 2 := by
        rw [ih]; nlinarith
      rw [hueStep_no_wrap _ h1 h2, ih]
      unfold plerp hueLerpFactor
      ring

/-- C6 counterexample: the hue field is a lerped AnimationState field with
lerp factor `hueLerpFactor = 0.01`; holding the target inputs fixed (target
hue 222.5 from initial hue 210), after 500 frames at unit time delta the hue
is still about 0.082 away from its target — more than the claimed epsilon
1e-3. -/
theorem hue_not_within_epsilon_after_500_frames :
    |hueHeldIter 500 - hueTargetHeld| > 1 / 1000 := by
  rw [hueHeldIter_eq, hueTargetHeld_eq]
  have habs : |445 / 2 - 25 / 2 * ((99:ℚ) / 100) ^ 500 - 445 / 2| =
      25 / 2 * ((99:ℚ) / 100) ^ 500 := by
    rw [show (445:ℚ) / 2 - 25 / 2 * ((99:ℚ) / 100) ^ 500 - 445 / 2 =
        -(25 / 2 * ((99:ℚ) / 100) ^ 500) by ring, abs_neg,
      abs_of_nonneg (by positivity)]
  rw [habs]
  norm_num

/-- The uniform smoothing idiom of the sketch: every AnimationState field is
updated once per frame by `field = lerp(field, target, factor)`;
`lerpIter f target n x` is such a field after `n` frames from `x` with the
target held constant. -/
def lerpIter (f target : ℚ) (n : ℕ) (x : ℚ) : ℚ := (fun y => plerp y target f)^[n] x

lemma lerpIter_closed (f target x : ℚ) :
    ∀ n : ℕ, lerpIter f target n x - target = (1 - f) ^ n * (x - target) := by
  intro n
  induction n with
  | zero => simp [lerpIter]
  | succ m ih =>
      unfold lerpIter at ih ⊢
      rw [Function.iterate_succ_apply']
      have hm : (fun y => plerp y target f)^[m] x = target + (1 - f) ^ m * (x - target) := by
        linarith [ih]
      rw [hm]
      unfold plerp
      ring

/-- C6 amended: every lerped AnimationState field does converge to its held
target — the distance after `n` frames is exactly `(1 - f)^n` times the
initial distance, and for every positive epsilon there is a frame count
beyond which the field stays within epsilon — but 500 frames at epsilon 1e-3
is not enough for every field (the hue field refutes that instance). -/
theorem lerped_field_converges_to_target (f target x : ℚ) (h0 : 0 < f) (h1 : f ≤ 1) :
    (∀ n : ℕ, |lerpIter f target n x - target| = (1 - f) ^ n * |x - target|) ∧
    (∀ ε : ℚ, 0 < ε → ∃ N : ℕ, ∀ n : ℕ, N ≤ n →
      |lerpIter f target n x - target| ≤ ε) := by
  have h1f : (0:ℚ) ≤ 1 - f := by linarith
  have habs : ∀ n : ℕ, |lerpIter f target n x - target| = (1 - f) ^ n * |x - target| := by
    intro n
    rw [lerpIter_closed, abs_mul, abs_pow, abs_of_nonneg h1f]
  refine ⟨habs, fun ε hε => ?_⟩
  have hM : (0:ℚ) < |x - target| + 1 := by positivity
  obtain ⟨N, hN⟩ := exists_pow_lt_of_lt_one (div_pos hε hM) (by linarith : 1 - f < 1)
  refine ⟨N, fun n hn => ?_⟩
  rw [habs]
  have hpow : (1 - f) ^ n ≤ (1 - f) ^ N := pow_le_pow_of_le_one h1f (by linarith) hn
  have hb : (1 - f) ^ n * |x - target| ≤ ε / (|x - target| + 1) * |x - target| :=
    mul_le_mul (le_trans hpow (le_of_lt hN)) le_rfl (abs_nonneg _)
      (le_of_lt (div_pos hε hM))
  have hc : ε / (|x - target| + 1) * |x - target| ≤ ε := by
    rw [div_mul_eq_mul_div, div_le_iff₀ hM]
    nlinarith [abs_nonneg (x - target)]
  linarith

/-- Witness for the amended C6 theorem at the hue field's lerp factor. -/
theorem lerped_field_converges_to_target_witness :
    (0:ℚ) < 1 / 100 ∧ (1 / 100 : ℚ) ≤ 1 ∧
    (∀ n : ℕ, |lerpIter (1 / 100) (445 / 2) n 210 - 445 / 2| =
      (1 - 1 / 100) ^ n * |(210 : ℚ) - 445 / 2|) :=
  ⟨by norm_num, by norm_num,
    (lerped_field_converges_to_target (1 / 100) (445 / 2) 210 (by norm_num)
      (by norm_num)).1⟩

/-! ## C7: `p.deactivate` called twice in a row -/

/-- The sketch state touched by `p.deactivate` / `stopAudioProcessing`
(part_003, lines 316 and 661).  `micStreamPresent` / `microphoneConnected`
model the nullable `micStream` / `microphone` handles; `trackStopEvents`
counts how many times the code actually issued `track.stop()` on a live
stream, to make a double release observable. -/
structure DeactState where
  isP5StateActive : Bool
  isBreathing : Bool
  pauseEnded : Bool
  pauseEffectTimer : ℚ
  pauseEffectIntensity : ℚ
  inhaleAmount : ℚ
  micStreamPresent : Bool
  microphoneConnected : Bool
  audioReady : Bool
  smoothedOverallLevel : ℚ
  smoothedMidLevel : ℚ
  smoothedTrebleLevel : ℚ
  frequencySpread : ℚ
  averageVolume : ℚ
  volumeHistory : List ℚ
  midHistory : List ℚ
  sustainedMidLevel : ℚ
  pitchProxy : ℚ
  lastPitchProxy : ℚ
  pitchChangeRate : ℚ
  focusFactor : ℚ
  melodyFactor : ℚ
  emphasisFactor : ℚ
  trackStopEvents : ℕ
  deriving DecidableEq

/-- `stopLerpFactor = audioLerpFactor * 4` (part_003, line 316). -/
def stopLerpFactor : ℚ := audioLerpFactor * 4

/-- `stopAudioProcessing` (part_003, line 316): stop and null the mic stream
(only when one is present), disconnect and null the source node, drop
`audioReady`, decay the four smoothed signals by one fast lerp step toward 0,
and hard-reset the histories, averages, pitch state and mode factors. -/
def stopAudioProcessing (s : DeactState) : DeactState :=
  let s1 :=
    if s.micStreamPresent then
      { s with trackStopEvents := s.trackStopEvents + 1, micStreamPresent := false }
    else s
  let s2 :=
    if s1.microphoneConnected then { s1 with microphoneConnected := false } else s1
  { s2 with
    audioReady := false
    smoothedOverallLevel := plerp s2.smoothedOverallLevel 0 stopLerpFactor
    smoothedMidLevel := plerp s2.smoothedMidLevel 0 stopLerpFactor
    smoothedTrebleLevel := plerp s2.smoothedTrebleLevel 0 stopLerpFactor
    frequencySpread := plerp s2.frequencySpread 0 stopLerpFactor
    averageVolume := 0
    volumeHistory := s2.volumeHistory.map (fun _ => 0)
    midHistory := s2.midHistory.map (fun _ => 0)
    sustainedMidLevel := 0
    pitchProxy := 0.5
    lastPitchProxy := 0.5
    pitchChangeRate := 0
    focusFactor := 0
    melodyFactor := 0
    emphasisFactor := 0 }

/-- `p.deactivate` (part_003, line 661): clear the visual state and the pause
/ breathing sub-state, then `stopAudioProcessing()`. -/
def p_deactivate (s : DeactState) : DeactState :=
  stopAudioProcessing
    { s with isP5StateActive := false, isBreathing := false, pauseEnded := false,
             pauseEffectTimer := 0, pauseEffectIntensity := 0, inhaleAmount := 0 }

/-- A live capturing state with a nonzero smoothed overall level. -/
def deactExample : DeactState :=
  { isP5StateActive := true, isBreathing := false, pauseEnded := false,
    pauseEffectTimer := 0, pauseEffectIntensity := 0, inhaleAmount := 0,
    micStreamPresent := true, microphoneConnected := true, audioReady := true,
    smoothedOverallLevel := 1/2, smoothedMidLevel := 0, smoothedTrebleLevel := 0,
    frequencySpread := 0, averageVolume := 0, volumeHistory := [],
    midHistory := [], sustainedMidLevel := 0, pitchProxy := 1/2,
    lastPitchProxy := 1/2, pitchChangeRate := 0, focusFactor := 0,
    melodyFactor := 0, emphasisFactor := 0, trackStopEvents := 0 }

/-- C7 counterexample: from a state with `smoothedOverallLevel = 0.5`, calling
`deactivate()` twice does not leave the state unchanged from the single-call
result — the second call decays the smoothed levels again (0.3 becomes 0.18),
so the two terminal states differ. -/
theorem deactivate_twice_changes_state :
    p_deactivate (p_deactivate deactExample) ≠ p_deactivate deactExample := by
  intro h
  have hfield := congrArg DeactState.smoothedOverallLevel h
  simp only [p_deactivate, stopAudioProcessing, deactExample, plerp,
    stopLerpFactor, audioLerpFactor] at hfield
  norm_num at hfield

/-- C7 amended: the second `deactivate()` raises no exception (it is a total
function of the state), performs no double release (the first call already
nulled the stream, so no further `track.stop()` is issued), and leaves every
field unchanged except the four exponentially decayed signal levels
(`smoothedOverallLevel`, `smoothedMidLevel`, `smoothedTrebleLevel`,
`frequencySpread`), which are each decayed by one more lerp step toward 0. -/
theorem deactivate_second_call_benign (s : DeactState) :
    (p_deactivate s).micStreamPresent = false ∧
    (p_deactivate (p_deactivate s)).trackStopEvents =
      (p_deactivate s).trackStopEvents ∧
    p_deactivate (p_deactivate s) =
      { p_deactivate s with
          smoothedOverallLevel :=
            plerp (p_deactivate s).smoothedOverallLevel 0 stopLerpFactor
          smoothedMidLevel :=
            plerp (p_deactivate s).smoothedMidLevel 0 stopLerpFactor
          smoothedTrebleLevel :=
            plerp (p_deactivate s).smoothedTrebleLevel 0 stopLerpFactor
          frequencySpread :=
            plerp (p_deactivate s).frequencySpread 0 stopLerpFactor } := by
  cases hm : s.micStreamPresent <;> cases hc : s.microphoneConnected <;>
    simp [p_deactivate, stopAudioProcessing, hm, hc, List.map_map, Function.comp_def]

/-! ## C2 and C4: activate / deactivate lifecycle with asynchronous setup -/

/-- Lifecycle-level abstraction of the sketch's audio state: the visual state
flag, whether an audio context is live and running, whether a mic capture
session (stream with running tracks) is open, whether analysis is ready, and
whether a `setupAudio` call scheduled by `activate` is still pending. -/
structure AudioLifecycle where
  isP5StateActive : Bool
  ctxRunning : Bool
  micOpen : Bool
  audioReady : Bool
  setupPending : Bool
  deriving DecidableEq

/-- The sketch before any activation. -/
def lifecycleInit : AudioLifecycle :=
  { isP5StateActive := false, ctxRunning := false, micOpen := false,
    audioReady := false, setupPending := false }

/-- `p.activate` (part_003, lines 614-660): flips `isP5StateActive` to true
immediately; if the audio context is already running and ready it returns at
once, otherwise it schedules `setupAudio` asynchronously (via `setTimeout`),
which stays pending until the permission promise settles. -/
def p_activate (s : AudioLifecycle) : AudioLifecycle :=
  let s1 := { s with isP5StateActive := true }
  if s1.ctxRunning = true ∧ s1.audioReady = true then s1
  else { s1 with setupPending := true }

/-- `p.deactivate` at this abstraction level (part_003, line 661, via
`stopAudioProcessing`): drops the flag, stops the mic tracks and clears
`audioReady`.  It does not cancel a pending `setupAudio`. -/
def lifecycleDeactivate (s : AudioLifecycle) : AudioLifecycle :=
  { s with isP5StateActive := false, micOpen := false, audioReady := false }

/-- The pending `setupAudio` settling with permission granted (part_003,
line 313): on both of its paths (fresh context or reconnect) it ends with the
mic stream open and connected, the context running and `audioReady = true`.
It never consults `isP5StateActive` before applying its results. -/
def setupAudioSettleGrant (s : AudioLifecycle) : AudioLifecycle :=
  { s with ctxRunning := true, micOpen := true, audioReady := true,
           setupPending := false }

/-- The pending `setupAudio` settling with a capture failure (part_003,
line 313, the catch branch): stops any tracks, nulls stream / analyser,
closes the context, and sets both `audioReady = false` and
`isP5StateActive = false`. -/
def setupAudioSettleFail (s : AudioLifecycle) : AudioLifecycle :=
  { s with ctxRunning := false, micOpen := false, audioReady := false,
           isP5StateActive := false, setupPending := false }

/-- C2 (code evaluated at the failing interleaving): calling `activate()` then
`deactivate()` before the scheduled audio setup settles, and then letting the
permission promise resolve with a grant, leaves the freshly opened capture
session running (`micOpen = true`) even though the sketch is deactivated —
one open session, not the zero the claim requires. -/
theorem activate_deactivate_race_leaves_mic_open :
    (setupAudioSettleGrant (lifecycleDeactivate (p_activate lifecycleInit))).micOpen
        = true ∧
    (setupAudioSettleGrant (lifecycleDeactivate (p_activate lifecycleInit))).isP5StateActive
        = false ∧
    (lifecycleDeactivate (p_activate lifecycleInit)).setupPending = true :=
  ⟨rfl, rfl, rfl⟩

/-- C4 (code evaluated at the failing input): `activate()` flips the visual
state on immediately, but when the asynchronous capture setup then fails
(permission denied / device error), `setupAudio`'s catch branch sets
`isP5StateActive = false`, reverting the visualization to the inactive state
— contradicting the claim (and the comments inside `p.activate`) that it
stays visually active. -/
theorem activate_then_capture_failure_reverts_state :
    (p_activate lifecycleInit).isP5StateActive = true ∧
    (setupAudioSettleFail (p_activate lifecycleInit)).isP5StateActive = false :=
  ⟨rfl, rfl⟩
